import Mathlib

/-!
Shallow embedding of the lead filtering/pagination/exclusion engine and the
SERP-settings autosave/normalization logic of the serp_email web application
(src/app/auth/leads/page.tsx and src/app/auth/serp-settings/page.tsx).

JavaScript strings manipulated character-by-character in the source
(category lists, comma-separated settings fields) are modelled as lists of
characters (`JStr`), and the JavaScript primitives the source uses
(String.prototype.split/trim, replace with a whitespace class,
Array.prototype.join/filter/map) are given explicit executable definitions.
Identifiers that are only compared for equality (lead ids, timestamps,
messages) stay Lean `String`s.  Database rows keep only the fields the
modelled code reads or writes.
-/

/-- JavaScript string, modelled as its list of characters. -/
abbrev JStr := List Char

/-- Embeds the JavaScript `value.split(sep)` for a one-character separator:
`"".split(sep)` is `[""]`, separators at the ends produce empty pieces. -/
def splitOnChar (sep : Char) : JStr → List JStr
  | [] => [[]]
  | c :: rest =>
    if c = sep then [] :: splitOnChar sep rest
    else
      match splitOnChar sep rest with
      | [] => [[c]]
      | t :: ts => (c :: t) :: ts

/-- The source's `value.split(',')`. -/
def splitComma (s : JStr) : List JStr := splitOnChar ',' s

/-- Embeds `Array.prototype.join(sep)` for a one-character separator. -/
def joinChar (sep : Char) : List JStr → JStr
  | [] => []
  | [t] => t
  | t :: ts => t ++ sep :: joinChar sep ts

/-- The source's `array.join(',')`. -/
def joinComma (ts : List JStr) : JStr := joinChar ',' ts

/-- Embeds the JavaScript `String.prototype.trim`: whitespace stripped from
both ends of the string. -/
def jsTrim (s : JStr) : JStr :=
  ((s.dropWhile Char.isWhitespace).reverse.dropWhile Char.isWhitespace).reverse

/-- Embeds `value.replace(/\s/g, '')` from cleanCommaSeparatedValues: every
whitespace character is removed. -/
def stripWs (s : JStr) : JStr := s.filter (fun c => !c.isWhitespace)

/-- One character of the character class `[a-z_]` appearing in the source's
category regular expressions ('a' is code point 97, 'z' is 122, '_' is 95). -/
def isCatChar (c : Char) : Bool := (97 ≤ c.toNat && c.toNat ≤ 122) || c.toNat = 95

/-- Embeds the test `/^[a-z_]+(,[a-z_]+)*$/.test(value)` from
src/app/auth/leads/page.tsx: the string is a comma-separated sequence of one
or more nonempty groups of lowercase letters and underscores (so no empty
group, hence no leading, trailing or doubled comma, and no whitespace). -/
def matchesCategoryPattern (s : JStr) : Bool :=
  (splitComma s).all (fun g => !g.isEmpty && g.all isCatChar)

/-- The inline error text set by validateCustomCategory. -/
def customCategoryErrorMessage : JStr :=
  ("Categories must be lowercase letters and underscores only, separated by commas with no spaces (example: plumber,electrician,contractor)").data

/-- validateCustomCategory (leads page): computes the inline error message for
the custom-category input; the empty string means the input is accepted. -/
def validateCustomCategory (value : JStr) : JStr :=
  if (jsTrim value).isEmpty then []
  else if matchesCategoryPattern value then []
  else customCategoryErrorMessage

/-- The parse used by confirmExcludeLeads for comma-separated category
strings: `s.split(',').filter(c => c.trim())`.  Tokens are kept untrimmed;
tokens that are empty or all-whitespace are dropped. -/
def parseCats (s : JStr) : List JStr :=
  (splitComma s).filter (fun c => !(jsTrim c).isEmpty)

/-- The categoriesToAdd array accumulated by confirmExcludeLeads: the
checkbox selection followed by the parsed custom string (custom categories
contribute only when the custom string is nonempty after trimming). -/
def categoriesToAddList (selectedCategories : List JStr) (customCategory : JStr) : List JStr :=
  selectedCategories ++ (if !(jsTrim customCategory).isEmpty then parseCats customCategory else [])

/-- The merged category list computed by confirmExcludeLeads before joining:
existing entries (parsed from serp_exc_cat) first, then the chosen entries
that are not already among the existing ones. -/
def mergedCategoryList (existing : JStr) (categoriesToAdd : List JStr) : List JStr :=
  let existingCategories := parseCats existing
  let newCategories := categoriesToAdd.filter (fun cat => !existingCategories.contains cat)
  if existingCategories.length > 0 then existingCategories ++ newCategories
  else newCategories

/-- The new serp_exc_cat value written by confirmExcludeLeads. -/
def mergeExcludedCategories (existing : JStr) (categoriesToAdd : List JStr) : JStr :=
  joinComma (mergedCategoryList existing categoriesToAdd)

/-- cleanCommaSeparatedValues (serp-settings page): comma-split, trim each
token, drop empty tokens; when allowSpaces is false every remaining token
additionally has all of its whitespace removed; rejoin with commas.  An empty
input yields the empty string immediately. -/
def cleanCommaSeparatedValues (value : JStr) (allowSpaces : Bool) : JStr :=
  if value = [] then []
  else
    let values := ((splitComma value).map jsTrim).filter (fun v => v.length > 0)
    if !allowSpaces then joinComma (values.map stripWs)
    else joinComma values

/-- Modelled from the spec: "Persisted values are normalized before save:
comma-split, trimmed, empty-entries dropped; fields that disallow internal
spaces additionally strip whitespace from each token; rejoined with commas."
This definition follows the spec's words; the claim compares it with the
source's cleanCommaSeparatedValues. -/
def normalizeSpecClean (value : JStr) (allowSpaces : Bool) : JStr :=
  let toks := ((splitComma value).map jsTrim).filter (fun t => !t.isEmpty)
  joinComma (if allowSpaces then toks else toks.map stripWs)

/-- The `cleanedX || null` pattern used when writing settings: an empty
normalized string is stored as a null/absent value. -/
def persistedValue (cleaned : JStr) : Option JStr :=
  if cleaned = [] then none else some cleaned

/-! ### Data model of the relational store (claim-relevant fields only) -/

/-- A user_leads row: the association between an account and a lead.
`excluded` holds the exclusion timestamp (null = active). -/
structure UserLeadRow where
  id : Nat
  user_id : Nat
  lead_id : String
  excluded : Option String
deriving DecidableEq

/-- A serp_leads_v2 row; payload columns other than the email are not read
by the modelled logic and are elided. -/
structure SerpLeadRow where
  id : String
  email : Option String
deriving DecidableEq

/-- An email_drafts row (only the columns the leads page reads). -/
structure DraftRow where
  user_id : Nat
  lead_id : Option String
deriving DecidableEq

/-- A user_accounts row (only the columns the exclusion workflow touches). -/
structure AccountRow where
  id : Nat
  serp_exc_cat : Option JStr
deriving DecidableEq

/-- The relational store visible to the leads page. -/
structure Db where
  userLeads : List UserLeadRow
  serpLeads : List SerpLeadRow
  emailDrafts : List DraftRow
  accounts : List AccountRow
deriving DecidableEq

/-- The three visibility/filter toggles of the leads page. -/
structure FilterConfig where
  showWithoutEmails : Bool
  showEmailedLeads : Bool
  showExcludedLeads : Bool
deriving DecidableEq

/-- `lead.email && lead.email !== 'EmailNotFound'`: the resolved email is
non-null, nonempty and not the sentinel value. -/
def validEmail : Option String → Bool
  | none => false
  | some e => e != "" && e != "EmailNotFound"

/-- JavaScript truthiness of a nullable numeric id (`!userAccountId`). -/
def jsTruthyNum : Option Nat → Bool
  | none => false
  | some n => n != 0

/-- Lexicographic comparison of character lists by code point, used to model
ordering of timestamp strings in the excluded view's order-by clause. -/
def jstrLeB : JStr → JStr → Bool
  | [], _ => true
  | _ :: _, [] => false
  | a :: as, b :: bs => if a = b then jstrLeB as bs else decide (a.toNat < b.toNat)

/-- Sort key for the excluded view: the exclusion timestamp (null sorts as
the empty string; in that view every row has a non-null timestamp). -/
def exclKeyOf (ul : UserLeadRow) : JStr := (ul.excluded.getD "").data

/-- Step 1 of loadLeads: all user_leads rows of the account whose excluded
column matches the requested visibility, in the query's order (excluded view:
exclusion timestamp descending; normal view: association id descending). -/
def visibleAssociations (db : Db) (acct : Nat) (showExcluded : Bool) : List UserLeadRow :=
  let mine := db.userLeads.filter (fun ul => ul.user_id == acct)
  if showExcluded then
    List.insertionSort (fun a b => jstrLeB (exclKeyOf b) (exclKeyOf a) = true)
      (mine.filter (fun ul => ul.excluded.isSome))
  else
    List.insertionSort (fun a b => b.id ≤ a.id)
      (mine.filter (fun ul => ul.excluded.isNone))

/-- `(draftIds || []).map(d => d.lead_id).filter(id => id)`: the lead ids of
the account's email drafts, with null and empty ids dropped (JavaScript
truthiness). -/
def draftLeadIds (db : Db) (acct : Nat) : List String :=
  (db.emailDrafts.filter (fun d => d.user_id == acct)).filterMap (fun d =>
    match d.lead_id with
    | some s => if s = "" then none else some s
    | none => none)

/-- The leadsWithEmailSet of loadLeads: ids of the fetched serp_leads rows
(those whose id occurs among allLeadIds) that carry a valid email.  The
JavaScript Set is modelled as the list of its elements; only membership is
ever queried. -/
def leadsWithEmailIds (db : Db) (allLeadIds : List String) : List String :=
  ((db.serpLeads.filter (fun l => allLeadIds.contains l.id)).filter
    (fun l => validEmail l.email)).map (fun l => l.id)

/-- Step 4 of loadLeads applied to an already-fetched association list:
drop rows already drafted (normal view, unless showEmailedLeads), then drop
rows without a valid email (normal view, unless showWithoutEmails). -/
def filteredFromRows (db : Db) (acct : Nat) (cfg : FilterConfig)
    (allUserLeadsData : List UserLeadRow) : List UserLeadRow :=
  let allLeadIds := allUserLeadsData.map (fun ul => ul.lead_id)
  let withEmail := leadsWithEmailIds db allLeadIds
  let emailed :=
    if !cfg.showEmailedLeads && !cfg.showExcludedLeads && acct != 0 then draftLeadIds db acct
    else []
  allUserLeadsData.filter (fun ul =>
    if !cfg.showExcludedLeads && !cfg.showEmailedLeads && emailed.contains ul.lead_id then false
    else if !cfg.showExcludedLeads && !cfg.showWithoutEmails && !(withEmail.contains ul.lead_id) then false
    else true)

/-- The filtered, unpaginated association list of the engine. -/
def filteredAssociations (db : Db) (acct : Nat) (cfg : FilterConfig) : List UserLeadRow :=
  filteredFromRows db acct cfg (visibleAssociations db acct cfg.showExcludedLeads)

/-- A page row shown by the leads table: the full lead record merged with the
association's exclusion timestamp. -/
structure MergedLead where
  lead : SerpLeadRow
  excluded : Option String
deriving DecidableEq

/-- `excludedMap.get(lead.id)`: lookup in the Map built from the paginated
associations (for duplicate keys a JavaScript Map keeps the last entry). -/
def excludedLookup (uls : List UserLeadRow) (id : String) : Option String :=
  (uls.reverse.find? (fun ul => ul.lead_id == id)).bind (fun ul => ul.excluded)

/-- Outcome of one successful run of the filter/pagination engine. -/
structure LoadResult where
  totalRecords : Nat
  totalPages : Nat
  pageAssocs : List UserLeadRow
  mergedLeads : List MergedLead
deriving DecidableEq

/-- Steps 2-6 of loadLeads on an already-fetched nonempty association list:
filter in memory, compute totals from the filtered unpaginated list
(`Math.ceil` on naturals is `(n + d - 1) / d`), slice the current page and
hydrate it. -/
def loadLeadsFromRows (db : Db) (acct : Nat) (cfg : FilterConfig)
    (page pageSize : Nat) (allUserLeadsData : List UserLeadRow) : LoadResult :=
  let filteredUserLeads := filteredFromRows db acct cfg allUserLeadsData
  let fromIdx := (page - 1) * pageSize
  let paginatedUserLeads := (filteredUserLeads.drop fromIdx).take pageSize
  let totalCount := filteredUserLeads.length
  let pages := (totalCount + pageSize - 1) / pageSize
  let merged :=
    if paginatedUserLeads.isEmpty then []
    else
      let paginatedLeadIds := paginatedUserLeads.map (fun ul => ul.lead_id)
      let leadsData := db.serpLeads.filter (fun l => paginatedLeadIds.contains l.id)
      leadsData.map (fun l => ⟨l, excludedLookup paginatedUserLeads l.id⟩)
  ⟨totalCount, pages, paginatedUserLeads, merged⟩

/-- The success path of loadLeads for an account: fetch the visible
associations and, unless that list is empty (in which case all totals are
zero), run the in-memory filter/pagination pipeline. -/
def loadLeadsCore (db : Db) (acct : Nat) (cfg : FilterConfig) (page pageSize : Nat) : LoadResult :=
  let allUserLeadsData := visibleAssociations db acct cfg.showExcludedLeads
  if allUserLeadsData.isEmpty then ⟨0, 0, [], []⟩
  else loadLeadsFromRows db acct cfg page pageSize allUserLeadsData

/-- The component state that loadLeads mutates. -/
structure EngineState where
  totalRecords : Nat
  totalPages : Nat
  leads : List MergedLead
  error : String
deriving DecidableEq

/-- One invocation of loadLeads as a state transition, with the outcome of
the primary user_leads fetch made explicit: the error message is cleared on
entry; a failed primary fetch only reports the failure; an empty result
clears the table and the totals; otherwise the engine recomputes the view. -/
def loadLeadsStep (prev : EngineState) (db : Db) (acct : Nat) (cfg : FilterConfig)
    (page pageSize : Nat) (primaryFetch : Except String (List UserLeadRow)) : EngineState :=
  let s0 : EngineState := { prev with error := "" }
  match primaryFetch with
  | Except.error msg => { s0 with error := "Failed to load leads: " ++ msg }
  | Except.ok rows =>
    if rows.isEmpty then { s0 with totalRecords := 0, totalPages := 0, leads := [] }
    else
      let r := loadLeadsFromRows db acct cfg page pageSize rows
      { s0 with totalRecords := r.totalRecords, totalPages := r.totalPages,
                leads := r.mergedLeads }

/-! ### Exclusion workflow (Restore / Exclude) -/

/-- Outcome of one bulk operation: the updated store and the transient
success notice (none when no notice is shown). -/
structure OpOutcome where
  db : Db
  notice : Option String
deriving DecidableEq

/-- The per-row effect of the Restore update: `excluded = NULL` on rows of
the account whose lead id is among the selection. -/
def restoreUpdateRow (acct : Nat) (selected : List String) (ul : UserLeadRow) : UserLeadRow :=
  if ul.user_id == acct && selected.contains ul.lead_id then { ul with excluded := none }
  else ul

/-- The success notice of handleRestoreLeads. -/
def restoreNotice (count : Nat) : String :=
  "Successfully restored " ++ toString count ++ " lead" ++ (if count == 1 then "" else "s") ++ "!"

/-- handleRestoreLeads: a no-op unless the selection is nonempty and the
account id is truthy; otherwise sets `excluded = NULL` on the matching
associations and shows the success notice. -/
def handleRestoreLeads (userAccountId : Option Nat) (selectedLeads : List String)
    (db : Db) : OpOutcome :=
  match userAccountId with
  | none => ⟨db, none⟩
  | some a =>
    if selectedLeads.isEmpty || a == 0 then ⟨db, none⟩
    else
      ⟨{ db with userLeads := db.userLeads.map (restoreUpdateRow a selectedLeads) },
       some (restoreNotice selectedLeads.length)⟩

/-- The per-row effect of the Exclude update: `excluded = now()` on rows of
the account whose lead id is among the selection. -/
def excludeUpdateRow (acct : Nat) (selected : List String) (now : String)
    (ul : UserLeadRow) : UserLeadRow :=
  if ul.user_id == acct && selected.contains ul.lead_id then { ul with excluded := some now }
  else ul

/-- The success notice of confirmExcludeLeads. -/
def excludeNotice (count : Nat) : String :=
  "Successfully excluded " ++ toString count ++ " lead" ++ (if count == 1 then "" else "s") ++ "!"

/-- The serp_exc_cat merge step of confirmExcludeLeads: when any categories
were chosen, fetch the account row (skipping the merge when it cannot be
fetched) and overwrite its serp_exc_cat with the merged list. -/
def applyCategoryMerge (a : Nat) (toAdd : List JStr) (db1 : Db) : Db :=
  if toAdd.length > 0 then
    match db1.accounts.find? (fun r => r.id == a) with
    | none => db1
    | some row =>
      let merged := mergeExcludedCategories (row.serp_exc_cat.getD []) toAdd
      { db1 with accounts := db1.accounts.map (fun r =>
          if r.id == a then { r with serp_exc_cat := some merged } else r) }
  else db1

/-- confirmExcludeLeads: returns immediately when the account id is falsy or
when a nonempty custom-category string fails the pattern test.  Otherwise it
stamps the matching associations with the exclusion time, merges any chosen
categories into the account's serp_exc_cat and shows the success notice.
Note that an empty lead selection is not guarded against. -/
def confirmExcludeLeads (userAccountId : Option Nat) (selectedLeads : List String)
    (selectedCategories : List JStr) (customCategory : JStr) (now : String)
    (db : Db) : OpOutcome :=
  match userAccountId with
  | none => ⟨db, none⟩
  | some a =>
    if a == 0 then ⟨db, none⟩
    else if !(jsTrim customCategory).isEmpty && !matchesCategoryPattern customCategory then
      ⟨db, none⟩
    else
      let db1 := { db with userLeads := db.userLeads.map (excludeUpdateRow a selectedLeads now) }
      ⟨applyCategoryMerge a (categoriesToAddList selectedCategories customCategory) db1,
       some (excludeNotice selectedLeads.length)⟩

/-! ### Exclusion dialog state -/

/-- The UI state handleRemoveLeads mutates before opening the dialog. -/
structure DialogState where
  excludeDialogOpen : Bool
  availableCategories : List JStr
  selectedCategories : List JStr
  customCategory : JStr
  customCategoryError : JStr
deriving DecidableEq

/-- Space-separated category tags of one lead, as collected by
handleRemoveLeads: split on a space, keep the trimmed nonempty tags. -/
def leadCategoryTags (categories : JStr) : List JStr :=
  ((splitOnChar ' ' categories).filter (fun c => !(jsTrim c).isEmpty)).map jsTrim

/-- First-seen de-duplication, modelling insertion into a JavaScript Set. -/
def dedupFirstSeen (l : List JStr) : List JStr :=
  l.foldl (fun acc c => if acc.contains c then acc else acc ++ [c]) []

/-- handleRemoveLeads: a no-op when nothing is selected; otherwise collects
the distinct category tags of the selected leads (sorted), resets the dialog
fields — the previous custom-category error included — and opens the dialog
unconditionally. -/
def handleRemoveLeads (selectedLeads : List String)
    (leads : List (String × JStr)) (st : DialogState) : DialogState :=
  if selectedLeads.isEmpty then st
  else
    let tags := dedupFirstSeen
      (((leads.filter (fun l => selectedLeads.contains l.1)).map
          (fun l => leadCategoryTags l.2)).flatten)
    { st with
        excludeDialogOpen := true
        availableCategories := List.insertionSort (fun a b => jstrLeB a b = true) tags
        selectedCategories := []
        customCategory := []
        customCategoryError := [] }

/-- The disabled predicate of the dialog's confirm button:
`isLoading || !!customCategoryError`. -/
def confirmButtonDisabled (isLoading : Bool) (customCategoryError : JStr) : Bool :=
  isLoading || !customCategoryError.isEmpty

/-! ### Settings autosave state machine -/

/-- The SERP-settings component state that the autosave logic reads. -/
structure SettingsState where
  userId : Option String
  isSignedIn : Bool
  serpDataLoaded : Bool
  isValidatingCodes : Bool
  invalidCategoryItems : List JStr
  invalidExcludedCategoryItems : List JStr
  invalidLocationCodes : List JStr
  serpKeywords : JStr
  serpCategory : JStr
  serpExcludedCategory : JStr
  serpLocations : JStr
  serpStates : JStr
deriving DecidableEq

/-- The row written by an (auto)save: each field normalized, with the empty
result persisted as null (`cleanedX || null`).  Keywords and states allow
internal spaces; categories, excluded categories and location codes do not. -/
structure SavePayload where
  serp_keywords : Option JStr
  serp_cat : Option JStr
  serp_exc_cat : Option JStr
  serp_locations : Option JStr
  serp_states : Option JStr
deriving DecidableEq

/-- The payload autoSaveSerpSettings would write for a given state. -/
def savePayloadOf (s : SettingsState) : SavePayload :=
  ⟨persistedValue (cleanCommaSeparatedValues s.serpKeywords true),
   persistedValue (cleanCommaSeparatedValues s.serpCategory false),
   persistedValue (cleanCommaSeparatedValues s.serpExcludedCategory false),
   persistedValue (cleanCommaSeparatedValues s.serpLocations false),
   persistedValue (cleanCommaSeparatedValues s.serpStates true)⟩

/-- What one invocation of autoSaveSerpSettings does: the persistence write
it performs (none = no write), the error message it surfaces and the success
notice. -/
structure SaveOutcome where
  write : Option SavePayload
  userError : Option String
  notice : Option String
deriving DecidableEq

/-- autoSaveSerpSettings: returns silently when the user id is missing, when
location-code validation is in flight or when any invalid-item list is
nonempty; only then does it fetch a token (failure surfaces an auth error
without a write) and perform the write (a write error surfaces a message
after the write was attempted). -/
def autoSaveSerpSettings (s : SettingsState) (token : Option String)
    (writeError : Option String) : SaveOutcome :=
  match s.userId with
  | none => ⟨none, none, none⟩
  | some _ =>
    if s.isValidatingCodes then ⟨none, none, none⟩
    else if s.invalidCategoryItems.length > 0 || s.invalidExcludedCategoryItems.length > 0
        || s.invalidLocationCodes.length > 0 then ⟨none, none, none⟩
    else
      match token with
      | none => ⟨none, some "Authentication failed. Please sign in again.", none⟩
      | some _ =>
        match writeError with
        | some _ => ⟨some (savePayloadOf s), some "Failed to save settings. Changes may be lost.", none⟩
        | none => ⟨some (savePayloadOf s), none, some "Settings saved automatically"⟩

/-- The guard of the autosave effect (the debounce timer is only scheduled
when this holds): signed in, data loaded, no validation in flight, all three
invalid-item lists empty. -/
def autosaveEffectSchedules (s : SettingsState) : Bool :=
  s.isSignedIn && s.serpDataLoaded && !s.isValidatingCodes
    && !(s.invalidCategoryItems.length > 0 || s.invalidExcludedCategoryItems.length > 0
         || s.invalidLocationCodes.length > 0)

/-! ### Concrete sample data for the spec's scenarios -/

/-- 120 active (non-excluded) associations of account 1. -/
def sampleAssocs : List UserLeadRow :=
  (List.range 120).map (fun i => ⟨i, 1, toString i, none⟩)

/-- A lead catalog in which every one of the 120 leads has a valid email. -/
def sampleCatalog : List SerpLeadRow :=
  (List.range 120).map (fun i => ⟨toString i, some ("mail" ++ toString i)⟩)

/-- Store for the pagination scenario: 120 active associations, all leads
with valid emails, no drafts. -/
def sampleDb : Db := ⟨sampleAssocs, sampleCatalog, [], [⟨1, none⟩]⟩

/-- The default view: hide leads without emails, hide already-emailed leads,
normal (non-excluded) visibility. -/
def defaultCfg : FilterConfig := ⟨false, false, false⟩

/-! ### Lemmas about the JavaScript string primitives -/

theorem splitOnChar_ne_nil (sep : Char) (s : JStr) : splitOnChar sep s ≠ [] := by
  induction s with
  | nil => simp [splitOnChar]
  | cons c rest ih =>
    simp only [splitOnChar]
    split
    · simp
    · cases h : splitOnChar sep rest <;> simp

theorem sep_not_mem_of_mem_splitOnChar {sep : Char} {s p : JStr}
    (hp : p ∈ splitOnChar sep s) : sep ∉ p := by
  induction s generalizing p with
  | nil =>
    simp only [splitOnChar, List.mem_singleton] at hp
    subst hp; simp
  | cons c rest ih =>
    by_cases hc : c = sep
    · rw [splitOnChar, if_pos hc] at hp
      rcases List.mem_cons.mp hp with h | h
      · subst h; simp
      · exact ih h
    · rw [splitOnChar, if_neg hc] at hp
      cases h : splitOnChar sep rest with
      | nil => exact absurd h (splitOnChar_ne_nil sep rest)
      | cons t ts =>
        rw [h] at hp
        rcases List.mem_cons.mp hp with h1 | h1
        · subst h1
          intro hmem
          rcases List.mem_cons.mp hmem with he | he
          · exact hc he.symm
          · exact ih (h ▸ List.mem_cons_self t ts) he
        · exact ih (h ▸ List.mem_cons_of_mem t h1)

theorem joinChar_cons_cons (sep c : Char) (t : JStr) (ts : List JStr) :
    joinChar sep ((c :: t) :: ts) = c :: joinChar sep (t :: ts) := by
  cases ts <;> simp [joinChar]

theorem joinChar_splitOnChar (sep : Char) (s : JStr) :
    joinChar sep (splitOnChar sep s) = s := by
  induction s with
  | nil => rfl
  | cons c rest ih =>
    by_cases hc : c = sep
    · rw [splitOnChar, if_pos hc]
      cases h : splitOnChar sep rest with
      | nil => exact absurd h (splitOnChar_ne_nil sep rest)
      | cons t ts =>
        rw [h] at ih
        calc joinChar sep ([] :: t :: ts) = sep :: joinChar sep (t :: ts) := by simp [joinChar]
        _ = c :: rest := by rw [ih, hc]
    · rw [splitOnChar, if_neg hc]
      cases h : splitOnChar sep rest with
      | nil => exact absurd h (splitOnChar_ne_nil sep rest)
      | cons t ts =>
        rw [h] at ih
        rw [joinChar_cons_cons, ih]

theorem splitOnChar_append_cons {sep : Char} {t : JStr} (r : JStr) (h : sep ∉ t) :
    splitOnChar sep (t ++ sep :: r) = t :: splitOnChar sep r := by
  induction t with
  | nil => simp [splitOnChar]
  | cons c t' ih =>
    have hc : ¬c = sep := fun e => h (e ▸ List.mem_cons_self c t')
    rw [List.cons_append, splitOnChar, if_neg hc,
      ih (fun hm => h (List.mem_cons_of_mem c hm))]

theorem splitOnChar_eq_single {sep : Char} {t : JStr} (h : sep ∉ t) :
    splitOnChar sep t = [t] := by
  induction t with
  | nil => rfl
  | cons c t' ih =>
    have hc : ¬c = sep := fun e => h (e ▸ List.mem_cons_self c t')
    rw [splitOnChar, if_neg hc, ih (fun hm => h (List.mem_cons_of_mem c hm))]

theorem splitOnChar_joinChar {sep : Char} :
    ∀ {toks : List JStr}, toks ≠ [] → (∀ t ∈ toks, sep ∉ t) →
      splitOnChar sep (joinChar sep toks) = toks
  | [], h, _ => absurd rfl h
  | [t], _, hsep => by
    rw [joinChar, splitOnChar_eq_single (hsep t (List.mem_singleton_self t))]
  | t :: u :: ts, _, hsep => by
    have h1 : joinChar sep (t :: u :: ts) = t ++ sep :: joinChar sep (u :: ts) := rfl
    rw [h1, splitOnChar_append_cons _ (hsep t (List.mem_cons_self t _)),
      splitOnChar_joinChar (by simp) (fun x hx => hsep x (List.mem_cons_of_mem t hx))]

theorem dropWhile_get_zero_false (p : Char → Bool) (l : JStr)
    (h : 0 < (l.dropWhile p).length) :
    p ((l.dropWhile p).get ⟨0, h⟩) = false := by
  induction l with
  | nil => simp at h
  | cons a l ih =>
    by_cases hp : p a
    · have e : (a :: l).dropWhile p = l.dropWhile p := by simp [List.dropWhile_cons, hp]
      have h' : 0 < (l.dropWhile p).length := by rw [← e]; exact h
      have := ih h'
      simpa [e] using this
    · simp [List.dropWhile_cons, hp]

theorem jsTrim_eq_rdropWhile (s : JStr) :
    jsTrim s = List.rdropWhile Char.isWhitespace (s.dropWhile Char.isWhitespace) := rfl

theorem jsTrim_dropWhile (s : JStr) :
    (jsTrim s).dropWhile Char.isWhitespace = jsTrim s := by
  rw [jsTrim_eq_rdropWhile, List.dropWhile_eq_self_iff]
  intro hl
  have hpre : List.rdropWhile Char.isWhitespace (s.dropWhile Char.isWhitespace) <+:
      s.dropWhile Char.isWhitespace := List.rdropWhile_prefix _ _
  have hlt : 0 < (s.dropWhile Char.isWhitespace).length := lt_of_lt_of_le hl hpre.length_le
  have hz := dropWhile_get_zero_false Char.isWhitespace s hlt
  have he : (List.rdropWhile Char.isWhitespace (s.dropWhile Char.isWhitespace)).get ⟨0, hl⟩
      = (s.dropWhile Char.isWhitespace).get ⟨0, hlt⟩ := by
    simpa using hpre.getElem hl
  rw [he, hz]
  simp

theorem jsTrim_idem (s : JStr) : jsTrim (jsTrim s) = jsTrim s := by
  rw [jsTrim_eq_rdropWhile (jsTrim s), jsTrim_dropWhile, jsTrim_eq_rdropWhile s,
    List.rdropWhile_idempotent]

theorem jsTrim_eq_self {s : JStr} (h : ∀ c ∈ s, c.isWhitespace = false) : jsTrim s = s := by
  rw [jsTrim_eq_rdropWhile]
  have h1 : s.dropWhile Char.isWhitespace = s := by
    rw [List.dropWhile_eq_self_iff]
    intro hl
    rw [h _ (List.get_mem s _ _)]
    simp
  rw [h1, List.rdropWhile_eq_self_iff]
  intro hl
  rw [h _ (List.getLast_mem hl)]
  simp

theorem mem_of_mem_jsTrim {c : Char} {s : JStr} (h : c ∈ jsTrim s) : c ∈ s := by
  rw [jsTrim_eq_rdropWhile] at h
  exact (List.dropWhile_sublist _).subset
    ((List.rdropWhile_prefix Char.isWhitespace (s.dropWhile Char.isWhitespace)).sublist.subset h)

theorem jsTrim_has_solid {s : JStr} (h : jsTrim s ≠ []) :
    ∃ c ∈ jsTrim s, c.isWhitespace = false := by
  have hlen : 0 < (jsTrim s).length := List.length_pos.mpr h
  refine ⟨(jsTrim s).get ⟨0, hlen⟩, List.get_mem _ _ _, ?_⟩
  have := List.dropWhile_eq_self_iff.mp (jsTrim_dropWhile s) hlen
  simpa using this

theorem stripWs_stripWs (s : JStr) : stripWs (stripWs s) = stripWs s := by
  apply List.filter_eq_self.mpr
  intro a ha
  exact (List.mem_filter.mp ha).2

theorem mem_of_mem_stripWs {c : Char} {s : JStr} (h : c ∈ stripWs s) : c ∈ s :=
  (List.filter_sublist _).subset h

theorem not_ws_of_mem_stripWs {c : Char} {s : JStr} (h : c ∈ stripWs s) :
    c.isWhitespace = false := by
  have := (List.mem_filter.mp h).2
  simpa using this

theorem jsTrim_stripWs (s : JStr) : jsTrim (stripWs s) = stripWs s :=
  jsTrim_eq_self (fun _ hc => not_ws_of_mem_stripWs hc)

theorem stripWs_ne_nil {s : JStr} (h : ∃ c ∈ s, c.isWhitespace = false) :
    stripWs s ≠ [] := by
  obtain ⟨c, hc, hw⟩ := h
  exact List.ne_nil_of_mem (List.mem_filter.mpr ⟨hc, by simp [hw]⟩)

/-! ### Pagination lemmas -/

theorem pages_flatten {α : Type} (n : Nat) (hn : 0 < n) :
    ∀ (k : Nat) (l : List α), (l.length + n - 1) / n = k →
      ((List.range k).map (fun i => (l.drop (i * n)).take n)).flatten = l := by
  intro k
  induction k with
  | zero =>
    intro l h
    have hlen : l.length = 0 := by
      by_contra hne
      have e : l.length + n - 1 = (l.length - 1) + n := by omega
      rw [e, Nat.add_div_right _ hn] at h
      exact absurd h (Nat.succ_ne_zero _)
    rw [List.length_eq_zero.mp hlen]
    simp
  | succ k ih =>
    intro l h
    have hl0 : 0 < l.length := by
      by_contra hz
      have hz0 : l.length = 0 := by omega
      rw [hz0] at h
      have h00 : (0 + n - 1) / n = 0 := Nat.div_eq_of_lt (by omega)
      rw [h00] at h
      exact Nat.succ_ne_zero k h.symm
    have e : l.length + n - 1 = (l.length - 1) + n := by omega
    rw [e, Nat.add_div_right _ hn] at h
    have hq : (l.length - 1) / n = k := Nat.add_right_cancel h
    have harg : ((l.drop n).length + n - 1) / n = k := by
      rw [List.length_drop]
      by_cases hc : l.length ≤ n
      · have e1 : l.length - n = 0 := by omega
        have e2 : (l.length - 1) / n = 0 := Nat.div_eq_of_lt (by omega)
        rw [e1]
        have h00 : (0 + n - 1) / n = 0 := Nat.div_eq_of_lt (by omega)
        rw [h00]
        rw [e2] at hq
        exact hq
      · have e1 : l.length - n + n - 1 = l.length - 1 := by omega
        rw [e1, hq]
    have ihd := ih (l.drop n) harg
    rw [List.range_succ_eq_map, List.map_cons, List.map_map]
    have hcomp : ((List.range k).map ((fun i => (l.drop (i * n)).take n) ∘ Nat.succ)) =
        (List.range k).map (fun i => ((l.drop n).drop (i * n)).take n) := by
      apply List.map_congr_left
      intro i _
      simp only [Function.comp]
      rw [List.drop_drop]
      have hsm : Nat.succ i * n = n + i * n := by rw [Nat.succ_mul, Nat.add_comm]
      rw [hsm]
    rw [hcomp, List.flatten_cons, ihd]
    simp

theorem loadLeadsCore_pageAssocs (db : Db) (acct : Nat) (cfg : FilterConfig)
    (page pageSize : Nat) :
    (loadLeadsCore db acct cfg page pageSize).pageAssocs =
      ((filteredAssociations db acct cfg).drop ((page - 1) * pageSize)).take pageSize := by
  unfold loadLeadsCore
  by_cases h : (visibleAssociations db acct cfg.showExcludedLeads).isEmpty
  · rw [if_pos h]
    have hv : visibleAssociations db acct cfg.showExcludedLeads = [] := List.isEmpty_iff.mp h
    simp [filteredAssociations, hv, filteredFromRows]
  · rw [if_neg h]
    rfl

theorem loadLeadsCore_totalRecords (db : Db) (acct : Nat) (cfg : FilterConfig)
    (page pageSize : Nat) :
    (loadLeadsCore db acct cfg page pageSize).totalRecords =
      (filteredAssociations db acct cfg).length := by
  unfold loadLeadsCore
  by_cases h : (visibleAssociations db acct cfg.showExcludedLeads).isEmpty
  · rw [if_pos h]
    have hv : visibleAssociations db acct cfg.showExcludedLeads = [] := List.isEmpty_iff.mp h
    simp [filteredAssociations, hv, filteredFromRows]
  · rw [if_neg h]
    rfl

theorem loadLeadsCore_totalPages (db : Db) (acct : Nat) (cfg : FilterConfig)
    (page pageSize : Nat) :
    (loadLeadsCore db acct cfg page pageSize).totalPages =
      ((filteredAssociations db acct cfg).length + pageSize - 1) / pageSize := by
  unfold loadLeadsCore
  by_cases h : (visibleAssociations db acct cfg.showExcludedLeads).isEmpty
  · rw [if_pos h]
    have hv : visibleAssociations db acct cfg.showExcludedLeads = [] := List.isEmpty_iff.mp h
    have hf : filteredAssociations db acct cfg = [] := by
      simp [filteredAssociations, hv, filteredFromRows]
    rw [hf]
    show 0 = (0 + pageSize - 1) / pageSize
    rcases Nat.eq_zero_or_pos pageSize with h0 | h0
    · rw [h0]
    · rw [Nat.div_eq_of_lt (by omega)]
  · rw [if_neg h]
    rfl

/-! ### Claim theorems -/

set_option maxRecDepth 8000 in
/-- C1: for every account, filter configuration, page size and page number,
the engine computes totals from the filtered, unpaginated association list
and then slices it: the returned page has at most pageSize rows, totalRecords
is the length of the filtered list, totalPages is the ceiling of
totalRecords / pageSize, and the concatenation of all pages equals the
filtered list (so page lengths sum to totalRecords).  In particular, with 120
active associations all having valid emails and pageSize 50, page 1 has 50
rows, totalPages is 3, and page 3 has 20 rows. -/
theorem C1_filter_pagination_engine (db : Db) (acct : Nat) (cfg : FilterConfig)
    (page pageSize : Nat) (hn : 0 < pageSize) :
    ((loadLeadsCore db acct cfg page pageSize).pageAssocs.length ≤ pageSize ∧
     (loadLeadsCore db acct cfg page pageSize).totalRecords =
       (filteredAssociations db acct cfg).length ∧
     (loadLeadsCore db acct cfg page pageSize).totalPages =
       ((loadLeadsCore db acct cfg page pageSize).totalRecords + pageSize - 1) / pageSize ∧
     ((List.range (loadLeadsCore db acct cfg page pageSize).totalPages).map
        (fun i => (loadLeadsCore db acct cfg (i + 1) pageSize).pageAssocs)).flatten =
       filteredAssociations db acct cfg) ∧
    ((loadLeadsCore sampleDb 1 defaultCfg 1 50).pageAssocs.length = 50 ∧
     (loadLeadsCore sampleDb 1 defaultCfg 1 50).mergedLeads.length = 50 ∧
     (loadLeadsCore sampleDb 1 defaultCfg 1 50).totalPages = 3 ∧
     (loadLeadsCore sampleDb 1 defaultCfg 1 50).totalRecords = 120 ∧
     (loadLeadsCore sampleDb 1 defaultCfg 3 50).pageAssocs.length = 20 ∧
     (loadLeadsCore sampleDb 1 defaultCfg 3 50).mergedLeads.length = 20) := by
  refine ⟨⟨?_, ?_, ?_, ?_⟩, by decide⟩
  · rw [loadLeadsCore_pageAssocs]
    have := List.length_take pageSize
      ((filteredAssociations db acct cfg).drop ((page - 1) * pageSize))
    omega
  · exact loadLeadsCore_totalRecords db acct cfg page pageSize
  · rw [loadLeadsCore_totalPages, loadLeadsCore_totalRecords]
  · rw [loadLeadsCore_totalPages]
    have hmap : (List.range (((filteredAssociations db acct cfg).length + pageSize - 1) / pageSize)).map
          (fun i => (loadLeadsCore db acct cfg (i + 1) pageSize).pageAssocs) =
        (List.range (((filteredAssociations db acct cfg).length + pageSize - 1) / pageSize)).map
          (fun i => ((filteredAssociations db acct cfg).drop (i * pageSize)).take pageSize) := by
      apply List.map_congr_left
      intro i _
      rw [loadLeadsCore_pageAssocs]
      have hi : i + 1 - 1 = i := Nat.add_sub_cancel i 1
      rw [hi]
    rw [hmap]
    exact pages_flatten pageSize hn _ _ rfl

/-- Witness for C1 at the spec's 120-association scenario. -/
theorem C1_filter_pagination_engine_witness :
    0 < 50 ∧
    (((loadLeadsCore sampleDb 1 defaultCfg 1 50).pageAssocs.length ≤ 50 ∧
      (loadLeadsCore sampleDb 1 defaultCfg 1 50).totalRecords =
        (filteredAssociations sampleDb 1 defaultCfg).length ∧
      (loadLeadsCore sampleDb 1 defaultCfg 1 50).totalPages =
        ((loadLeadsCore sampleDb 1 defaultCfg 1 50).totalRecords + 50 - 1) / 50 ∧
      ((List.range (loadLeadsCore sampleDb 1 defaultCfg 1 50).totalPages).map
         (fun i => (loadLeadsCore sampleDb 1 defaultCfg (i + 1) 50).pageAssocs)).flatten =
        filteredAssociations sampleDb 1 defaultCfg) ∧
     ((loadLeadsCore sampleDb 1 defaultCfg 1 50).pageAssocs.length = 50 ∧
      (loadLeadsCore sampleDb 1 defaultCfg 1 50).mergedLeads.length = 50 ∧
      (loadLeadsCore sampleDb 1 defaultCfg 1 50).totalPages = 3 ∧
      (loadLeadsCore sampleDb 1 defaultCfg 1 50).totalRecords = 120 ∧
      (loadLeadsCore sampleDb 1 defaultCfg 3 50).pageAssocs.length = 20 ∧
      (loadLeadsCore sampleDb 1 defaultCfg 3 50).mergedLeads.length = 20)) :=
  ⟨Nat.zero_lt_succ 49, C1_filter_pagination_engine sampleDb 1 defaultCfg 1 50 (Nat.zero_lt_succ 49)⟩

/-- C2 (counterexample): after a failed primary fetch the engine keeps the
previous total record count (here 7) instead of resetting it to zero, so the
claim that the total count is reset to zero on failure is false. -/
theorem C2_counterexample :
    (loadLeadsStep ⟨7, 2, [], ""⟩ ⟨[], [], [], []⟩ 1 defaultCfg 1 50
        (Except.error "boom")).error = "Failed to load leads: boom" ∧
    (loadLeadsStep ⟨7, 2, [], ""⟩ ⟨[], [], [], []⟩ 1 defaultCfg 1 50
        (Except.error "boom")).totalRecords = 7 ∧
    ¬ (loadLeadsStep ⟨7, 2, [], ""⟩ ⟨[], [], [], []⟩ 1 defaultCfg 1 50
        (Except.error "boom")).totalRecords = 0 := by
  decide

/-- C2 (amended): if the primary association fetch fails, the engine reports
the failure in its error message but leaves the total record count, total
page count and rows unchanged; the totals are reset to zero when the fetch
succeeds with an empty row set, not on failure. -/
theorem C2_primary_fetch_failure (prev : EngineState) (db : Db) (acct : Nat)
    (cfg : FilterConfig) (page pageSize : Nat) (msg : String) :
    (loadLeadsStep prev db acct cfg page pageSize (Except.error msg)).error
        = "Failed to load leads: " ++ msg ∧
    (loadLeadsStep prev db acct cfg page pageSize (Except.error msg)).totalRecords
        = prev.totalRecords ∧
    (loadLeadsStep prev db acct cfg page pageSize (Except.error msg)).totalPages
        = prev.totalPages ∧
    (loadLeadsStep prev db acct cfg page pageSize (Except.error msg)).leads
        = prev.leads ∧
    (loadLeadsStep prev db acct cfg page pageSize (Except.ok [])).totalRecords = 0 :=
  ⟨rfl, rfl, rfl, rfl, rfl⟩

theorem mergedCategoryList_eq (existing : JStr) (chosen : List JStr) :
    mergedCategoryList existing chosen =
      parseCats existing ++ chosen.filter (fun c => !(parseCats existing).contains c) := by
  unfold mergedCategoryList
  by_cases h : (parseCats existing).length > 0
  · rw [if_pos h]
  · rw [if_neg h]
    have hE : parseCats existing = [] := by
      rcases List.eq_nil_or_concat (parseCats existing) with he | ⟨a, b, he⟩
      · exact he
      · rw [he] at h
        simp at h
    rw [hE]
    rfl

theorem mem_parseCats_comma_free {s t : JStr} (h : t ∈ parseCats s) : ',' ∉ t :=
  sep_not_mem_of_mem_splitOnChar (List.mem_of_mem_filter h)

theorem mem_parseCats_trim_ne_nil {s t : JStr} (h : t ∈ parseCats s) : jsTrim t ≠ [] := by
  have := List.of_mem_filter h
  simpa [List.isEmpty_iff] using this

theorem parseCats_of_tokens {toks : List JStr} (h : ∀ t ∈ toks, ',' ∉ t ∧ jsTrim t ≠ []) :
    parseCats (joinComma toks) = toks := by
  cases htoks : toks with
  | nil => rfl
  | cons t ts =>
    rw [← htoks]
    unfold parseCats splitComma joinComma
    rw [splitOnChar_joinChar (by rw [htoks]; simp) (fun x hx => (h x hx).1)]
    apply List.filter_eq_self.mpr
    intro a ha
    simpa [List.isEmpty_iff] using (h a ha).2

/-- C3 (counterexample): the merge deduplicates only against the existing
entries, not within the chosen list itself; choosing "plumber" both by
checkbox and as custom string yields serp_exc_cat "plumber,plumber", so the
claim that the result never contains duplicates is false. -/
theorem C3_counterexample :
    categoriesToAddList ["plumber".data] ("plumber".data)
        = ["plumber".data, "plumber".data] ∧
    ¬ (mergedCategoryList [] (categoriesToAddList ["plumber".data] ("plumber".data))).Nodup ∧
    mergeExcludedCategories [] (categoriesToAddList ["plumber".data] ("plumber".data))
        = "plumber,plumber".data := by
  decide

/-- C3 (amended): the merge deduplicates the chosen categories against the
existing comma-separated exclusion set (not within the chosen list itself):
whenever the existing entries and the chosen list are each duplicate-free,
the result is duplicate-free, starts with the existing entries in their
original order, continues with the new entries in encounter order, and
contains every chosen category; re-reading serp_exc_cat recovers exactly the
merged list.  In particular, after Exclude with categories
"plumber,electrician" over existing "roofer", serp_exc_cat is
"roofer,plumber,electrician" and contains each chosen token exactly once. -/
theorem C3_exclusion_merge (existing : JStr) (chosen : List JStr)
    (hE : (parseCats existing).Nodup) (hC : chosen.Nodup)
    (hok : ∀ c ∈ chosen, ',' ∉ c ∧ jsTrim c ≠ []) :
    ((mergedCategoryList existing chosen).Nodup ∧
     parseCats existing <+: mergedCategoryList existing chosen ∧
     ((mergedCategoryList existing chosen).drop (parseCats existing).length).Sublist chosen ∧
     (∀ c ∈ chosen, c ∈ mergedCategoryList existing chosen) ∧
     parseCats (mergeExcludedCategories existing chosen) = mergedCategoryList existing chosen) ∧
    (mergeExcludedCategories ("roofer".data) ["plumber".data, "electrician".data]
        = "roofer,plumber,electrician".data ∧
     (parseCats (mergeExcludedCategories ("roofer".data)
        ["plumber".data, "electrician".data])).count ("plumber".data) = 1 ∧
     (parseCats (mergeExcludedCategories ("roofer".data)
        ["plumber".data, "electrician".data])).count ("electrician".data) = 1) := by
  have hmem : ∀ {c : JStr} {l : List JStr}, l.contains c = true ↔ c ∈ l := by
    intro c l
    exact List.elem_iff
  refine ⟨⟨?_, ?_, ?_, ?_, ?_⟩, by decide⟩
  · rw [mergedCategoryList_eq]
    refine List.Nodup.append hE (List.Nodup.filter _ hC) ?_
    intro x hx hx2
    have hf := List.of_mem_filter hx2
    have hc : (parseCats existing).contains x = true := hmem.mpr hx
    rw [hc] at hf
    simp at hf
  · rw [mergedCategoryList_eq]
    exact List.prefix_append _ _
  · rw [mergedCategoryList_eq, List.drop_left]
    exact List.filter_sublist _
  · intro c hc
    rw [mergedCategoryList_eq]
    by_cases hin : c ∈ parseCats existing
    · exact List.mem_append_left _ hin
    · refine List.mem_append_right _ (List.mem_filter.mpr ⟨hc, ?_⟩)
      cases hcc : (parseCats existing).contains c with
      | false => rfl
      | true => exact absurd (hmem.mp hcc) hin
  · unfold mergeExcludedCategories
    apply parseCats_of_tokens
    intro t ht
    rw [mergedCategoryList_eq] at ht
    rcases List.mem_append.mp ht with h1 | h1
    · exact ⟨mem_parseCats_comma_free h1, mem_parseCats_trim_ne_nil h1⟩
    · exact hok t (List.mem_of_mem_filter h1)

/-- Witness for C3 at existing "roofer" and chosen plumber, electrician. -/
theorem C3_exclusion_merge_witness :
    (parseCats ("roofer".data)).Nodup ∧
    (["plumber".data, "electrician".data] : List JStr).Nodup ∧
    (∀ c ∈ (["plumber".data, "electrician".data] : List JStr), ',' ∉ c ∧ jsTrim c ≠ []) ∧
    (((mergedCategoryList ("roofer".data) ["plumber".data, "electrician".data]).Nodup ∧
      parseCats ("roofer".data) <+:
        mergedCategoryList ("roofer".data) ["plumber".data, "electrician".data] ∧
      ((mergedCategoryList ("roofer".data) ["plumber".data, "electrician".data]).drop
          (parseCats ("roofer".data)).length).Sublist ["plumber".data, "electrician".data] ∧
      (∀ c ∈ (["plumber".data, "electrician".data] : List JStr),
        c ∈ mergedCategoryList ("roofer".data) ["plumber".data, "electrician".data]) ∧
      parseCats (mergeExcludedCategories ("roofer".data) ["plumber".data, "electrician".data])
        = mergedCategoryList ("roofer".data) ["plumber".data, "electrician".data]) ∧
     (mergeExcludedCategories ("roofer".data) ["plumber".data, "electrician".data]
        = "roofer,plumber,electrician".data ∧
      (parseCats (mergeExcludedCategories ("roofer".data)
         ["plumber".data, "electrician".data])).count ("plumber".data) = 1 ∧
      (parseCats (mergeExcludedCategories ("roofer".data)
         ["plumber".data, "electrician".data])).count ("electrician".data) = 1)) :=
  ⟨by decide, by decide, by decide,
   C3_exclusion_merge ("roofer".data) ["plumber".data, "electrician".data]
     (by decide) (by decide) (by decide)⟩

theorem applyCategoryMerge_userLeads (a : Nat) (toAdd : List JStr) (db1 : Db) :
    (applyCategoryMerge a toAdd db1).userLeads = db1.userLeads := by
  unfold applyCategoryMerge
  split
  · split <;> rfl
  · rfl

theorem confirmExcludeLeads_invalid_custom (acct : Option Nat) (sel : List String)
    (cats : List JStr) (custom : JStr) (now : String) (db : Db)
    (h1 : jsTrim custom ≠ []) (h2 : matchesCategoryPattern custom = false) :
    confirmExcludeLeads acct sel cats custom now db = ⟨db, none⟩ := by
  cases acct with
  | none => rfl
  | some a =>
    have hie : (jsTrim custom).isEmpty = false := by
      cases he : (jsTrim custom).isEmpty with
      | false => rfl
      | true => exact absurd (List.isEmpty_iff.mp he) h1
    simp [confirmExcludeLeads, hie, h2]

/-- C4 (counterexample): Exclude invoked with a non-null account id but an
empty lead selection is not a no-op: it still shows the success notice
("Successfully excluded 0 leads!") and still merges the chosen categories
into the account's exclusion set, so the claim that both operations return
immediately on an empty selection is false. -/
theorem C4_counterexample :
    (confirmExcludeLeads (some 1) [] ["plumber".data] [] "2024-01-01t00"
        ⟨[], [], [], [⟨1, none⟩]⟩).notice = some "Successfully excluded 0 leads!" ∧
    (confirmExcludeLeads (some 1) [] ["plumber".data] [] "2024-01-01t00"
        ⟨[], [], [], [⟨1, none⟩]⟩).db.accounts = [⟨1, some ("plumber".data)⟩] ∧
    ¬ (confirmExcludeLeads (some 1) [] ["plumber".data] [] "2024-01-01t00"
        ⟨[], [], [], [⟨1, none⟩]⟩).db = ⟨[], [], [], [⟨1, none⟩]⟩ := by
  decide

/-- C4 (amended): Restore with a null account id or an empty selection is a
no-op returning immediately, and Exclude with a null account id is a no-op
returning immediately; but Exclude with an empty selection (and a non-null
account id) proceeds: it changes no association row (nothing matches the
empty selection), yet still shows the success notice. -/
theorem C4_noop_guards :
    (∀ (sel : List String) (db : Db), handleRestoreLeads none sel db = ⟨db, none⟩) ∧
    (∀ (acct : Option Nat) (db : Db), handleRestoreLeads acct [] db = ⟨db, none⟩) ∧
    (∀ (sel : List String) (cats : List JStr) (custom : JStr) (now : String) (db : Db),
      confirmExcludeLeads none sel cats custom now db = ⟨db, none⟩) ∧
    (∀ (a : Nat) (cats : List JStr) (now : String) (db : Db),
      (confirmExcludeLeads (some (a + 1)) [] cats [] now db).db.userLeads = db.userLeads ∧
      (confirmExcludeLeads (some (a + 1)) [] cats [] now db).notice
        = some "Successfully excluded 0 leads!") := by
  refine ⟨fun sel db => rfl, ?_, fun sel cats custom now db => rfl, ?_⟩
  · intro acct db
    cases acct with
    | none => rfl
    | some a => simp [handleRestoreLeads]
  · intro a cats now db
    have hrow : ∀ ul : UserLeadRow, excludeUpdateRow (a + 1) [] now ul = ul := by
      intro ul
      unfold excludeUpdateRow
      simp
    have hmap : db.userLeads.map (excludeUpdateRow (a + 1) [] now) = db.userLeads := by
      calc db.userLeads.map (excludeUpdateRow (a + 1) [] now)
          = db.userLeads.map id := List.map_congr_left (fun ul _ => hrow ul)
        _ = db.userLeads := List.map_id _
    have hstep : confirmExcludeLeads (some (a + 1)) [] cats [] now db =
        ⟨applyCategoryMerge (a + 1) (categoriesToAddList cats [])
           { db with userLeads := db.userLeads.map (excludeUpdateRow (a + 1) [] now) },
         some (excludeNotice 0)⟩ := rfl
    rw [hstep]
    constructor
    · rw [applyCategoryMerge_userLeads]
      exact hmap
    · rfl

theorem catChar_ne_comma {c : Char} (h : isCatChar c = true) : c ≠ ',' := by
  intro e
  subst e
  exact absurd h (by decide)

/-- C5: the custom-category validator accepts exactly the strings that are
empty after trimming or consist of one or more nonempty groups of lowercase
letters/underscores joined by single commas (so no whitespace, no empty
group, no trailing comma); the spec's five concrete examples behave as
stated; an invalid string makes the confirm action a no-op and disables the
confirm button, while the dialog is opened by handleRemoveLeads regardless
of any previous custom-category error. -/
theorem C5_custom_category_validator :
    (∀ v : JStr, validateCustomCategory v = [] ↔
      (jsTrim v = [] ∨ ∃ gs : List JStr, gs ≠ [] ∧
        (∀ g ∈ gs, g ≠ [] ∧ ∀ c ∈ g, isCatChar c = true) ∧ v = joinComma gs)) ∧
    (validateCustomCategory ("plumber,electrician".data) = [] ∧
     validateCustomCategory [] = [] ∧
     validateCustomCategory ("plumber, electrician".data) ≠ [] ∧
     validateCustomCategory ("Plumber,electrician".data) ≠ [] ∧
     validateCustomCategory ("plumber,electrician,".data) ≠ []) ∧
    (∀ (acct : Option Nat) (sel : List String) (cats : List JStr) (custom : JStr)
       (now : String) (db : Db), jsTrim custom ≠ [] → matchesCategoryPattern custom = false →
       confirmExcludeLeads acct sel cats custom now db = ⟨db, none⟩) ∧
    (∀ err : JStr, err ≠ [] → confirmButtonDisabled false err = true) ∧
    (∀ (sel : List String) (leads : List (String × JStr)) (st : DialogState),
       sel ≠ [] → (handleRemoveLeads sel leads st).excludeDialogOpen = true) := by
  refine ⟨?_, by decide, confirmExcludeLeads_invalid_custom, ?_, ?_⟩
  · intro v
    constructor
    · intro hv
      unfold validateCustomCategory at hv
      by_cases h1 : (jsTrim v).isEmpty
      · exact Or.inl (List.isEmpty_iff.mp h1)
      · rw [if_neg h1] at hv
        by_cases h2 : matchesCategoryPattern v
        · refine Or.inr ⟨splitComma v, splitOnChar_ne_nil ',' v, ?_,
            (joinChar_splitOnChar ',' v).symm⟩
          intro g hg
          unfold matchesCategoryPattern at h2
          have hga := List.all_eq_true.mp h2 g hg
          have hg1 : g.isEmpty = false := by
            cases he : g.isEmpty with
            | false => rfl
            | true => rw [he] at hga; simp at hga
          refine ⟨fun he => by rw [he] at hg1; exact absurd hg1 (by decide), ?_⟩
          intro c hc
          have hg2 : g.all isCatChar = true := by
            rw [hg1] at hga
            simpa using hga
          exact List.all_eq_true.mp hg2 c hc
        · rw [if_neg h2] at hv
          exact absurd hv (by decide)
    · intro hv
      rcases hv with h | ⟨gs, hne, hprops, hveq⟩
      · unfold validateCustomCategory
        rw [if_pos (by rw [h]; rfl)]
      · have hmat : matchesCategoryPattern v = true := by
          rw [hveq]
          unfold matchesCategoryPattern splitComma
          have hjoin : joinComma gs = joinChar ',' gs := rfl
          rw [hjoin, splitOnChar_joinChar hne
            (fun t ht hmem => catChar_ne_comma ((hprops t ht).2 ',' hmem) rfl)]
          apply List.all_eq_true.mpr
          intro g hg
          obtain ⟨hgne, hchars⟩ := hprops g hg
          have hg1 : g.isEmpty = false := by
            cases g with
            | nil => exact absurd rfl hgne
            | cons a b => rfl
          rw [hg1]
          simpa using List.all_eq_true.mpr hchars
        unfold validateCustomCategory
        by_cases h1 : (jsTrim v).isEmpty
        · rw [if_pos h1]
        · rw [if_neg h1, if_pos hmat]
  · intro err herr
    unfold confirmButtonDisabled
    have : err.isEmpty = false := by
      cases he : err.isEmpty with
      | false => rfl
      | true => exact absurd (List.isEmpty_iff.mp he) herr
    rw [this]
    rfl
  · intro sel leads st hsel
    unfold handleRemoveLeads
    have : sel.isEmpty = false := by
      cases he : sel.isEmpty with
      | false => rfl
      | true => exact absurd (List.isEmpty_iff.mp he) hsel
    rw [this]
    rfl

/-- Witness for C5: the invalid string "plumber, electrician" makes the
confirm action a no-op at a concrete store. -/
theorem C5_custom_category_validator_witness :
    (jsTrim ("plumber, electrician".data) ≠ [] ∧
     matchesCategoryPattern ("plumber, electrician".data) = false) ∧
    confirmExcludeLeads (some 1) ["x"] [] ("plumber, electrician".data) "t"
        ⟨[], [], [], []⟩ = ⟨⟨[], [], [], []⟩, none⟩ :=
  ⟨⟨by decide, by decide⟩,
   C5_custom_category_validator.2.2.1 (some 1) ["x"] [] ("plumber, electrician".data) "t"
     ⟨[], [], [], []⟩ (by decide) (by decide)⟩

/-- C6: Restore sets excluded to NULL exactly on the account's matching
associations and leaves every other association row, the lead catalog, the
drafts and the whole account table (serp_exc_cat included) untouched;
restoring a lead whose association already has excluded = NULL leaves the
row unchanged, and the operation still succeeds with its success notice. -/
theorem C6_restore_frame (a : Nat) (selected : List String) (db : Db)
    (hsel : selected ≠ []) (ha : a ≠ 0) :
    (handleRestoreLeads (some a) selected db).db.accounts = db.accounts ∧
    (handleRestoreLeads (some a) selected db).db.serpLeads = db.serpLeads ∧
    (handleRestoreLeads (some a) selected db).db.emailDrafts = db.emailDrafts ∧
    (handleRestoreLeads (some a) selected db).notice
      = some (restoreNotice selected.length) ∧
    List.Forall₂ (fun ul ul' : UserLeadRow =>
        (ul.user_id = a ∧ ul.lead_id ∈ selected → ul' = { ul with excluded := none }) ∧
        (¬(ul.user_id = a ∧ ul.lead_id ∈ selected) → ul' = ul) ∧
        (ul.excluded = none → ul' = ul))
      db.userLeads (handleRestoreLeads (some a) selected db).db.userLeads := by
  have h1 : selected.isEmpty = false := by
    cases he : selected.isEmpty with
    | false => rfl
    | true => exact absurd (List.isEmpty_iff.mp he) hsel
  have h2 : (a == 0) = false := by
    cases a with
    | zero => exact absurd rfl ha
    | succ n => rfl
  have hstep : handleRestoreLeads (some a) selected db =
      ⟨{ db with userLeads := db.userLeads.map (restoreUpdateRow a selected) },
       some (restoreNotice selected.length)⟩ := by
    simp [handleRestoreLeads, h1, h2]
  rw [hstep]
  refine ⟨rfl, rfl, rfl, rfl, ?_⟩
  show List.Forall₂ _ db.userLeads (db.userLeads.map (restoreUpdateRow a selected))
  rw [List.forall₂_map_right_iff]
  apply List.forall₂_same.mpr
  intro ul _
  unfold restoreUpdateRow
  by_cases hc : (ul.user_id == a && selected.contains ul.lead_id) = true
  · rw [if_pos hc]
    have hc1 : ul.user_id = a := by
      have := (Bool.and_eq_true _ _).mp hc
      exact eq_of_beq this.1
    have hc2 : ul.lead_id ∈ selected := by
      have := (Bool.and_eq_true _ _).mp hc
      exact List.elem_iff.mp this.2
    refine ⟨fun _ => rfl, fun hn => absurd ⟨hc1, hc2⟩ hn, fun hnone => ?_⟩
    cases ul with
    | mk i u l e =>
      simp only at hnone
      rw [hnone]
  · rw [if_neg hc]
    refine ⟨fun hmatch => ?_, fun _ => rfl, fun _ => rfl⟩
    exact absurd (by
      rw [Bool.and_eq_true]
      exact ⟨by rw [hmatch.1]; simp, List.elem_iff.mpr hmatch.2⟩) hc

/-- Witness for C6 at a concrete store: one matching excluded row, one
matching already-included row, one row of another account. -/
theorem C6_restore_frame_witness :
    (["x", "y"] : List String) ≠ [] ∧ (1 : Nat) ≠ 0 ∧
    ((handleRestoreLeads (some 1) ["x", "y"]
        ⟨[⟨10, 1, "x", some "t1"⟩, ⟨11, 1, "y", none⟩, ⟨12, 2, "x", some "t2"⟩],
         [], [], [⟨1, some ("roofer".data)⟩]⟩).db.accounts
        = [⟨1, some ("roofer".data)⟩] ∧
     (handleRestoreLeads (some 1) ["x", "y"]
        ⟨[⟨10, 1, "x", some "t1"⟩, ⟨11, 1, "y", none⟩, ⟨12, 2, "x", some "t2"⟩],
         [], [], [⟨1, some ("roofer".data)⟩]⟩).db.serpLeads = [] ∧
     (handleRestoreLeads (some 1) ["x", "y"]
        ⟨[⟨10, 1, "x", some "t1"⟩, ⟨11, 1, "y", none⟩, ⟨12, 2, "x", some "t2"⟩],
         [], [], [⟨1, some ("roofer".data)⟩]⟩).db.emailDrafts = [] ∧
     (handleRestoreLeads (some 1) ["x", "y"]
        ⟨[⟨10, 1, "x", some "t1"⟩, ⟨11, 1, "y", none⟩, ⟨12, 2, "x", some "t2"⟩],
         [], [], [⟨1, some ("roofer".data)⟩]⟩).notice
        = some (restoreNotice (["x", "y"] : List String).length) ∧
     List.Forall₂ (fun ul ul' : UserLeadRow =>
        (ul.user_id = 1 ∧ ul.lead_id ∈ (["x", "y"] : List String) →
          ul' = { ul with excluded := none }) ∧
        (¬(ul.user_id = 1 ∧ ul.lead_id ∈ (["x", "y"] : List String)) → ul' = ul) ∧
        (ul.excluded = none → ul' = ul))
       [⟨10, 1, "x", some "t1"⟩, ⟨11, 1, "y", none⟩, ⟨12, 2, "x", some "t2"⟩]
       (handleRestoreLeads (some 1) ["x", "y"]
        ⟨[⟨10, 1, "x", some "t1"⟩, ⟨11, 1, "y", none⟩, ⟨12, 2, "x", some "t2"⟩],
         [], [], [⟨1, some ("roofer".data)⟩]⟩).db.userLeads) :=
  ⟨by decide, by decide,
   C6_restore_frame 1 ["x", "y"]
     ⟨[⟨10, 1, "x", some "t1"⟩, ⟨11, 1, "y", none⟩, ⟨12, 2, "x", some "t2"⟩],
      [], [], [⟨1, some ("roofer".data)⟩]⟩ (by decide) (by decide)⟩

theorem autoSave_suppressed (s : SettingsState) (token : Option String)
    (writeError : Option String)
    (h : s.isValidatingCodes = true ∨ s.invalidCategoryItems ≠ [] ∨
         s.invalidExcludedCategoryItems ≠ [] ∨ s.invalidLocationCodes ≠ []) :
    autoSaveSerpSettings s token writeError = ⟨none, none, none⟩ := by
  cases hu : s.userId with
  | none => simp [autoSaveSerpSettings, hu]
  | some uid =>
    by_cases hv : s.isValidatingCodes = true
    · simp [autoSaveSerpSettings, hu, hv]
    · have hlists : (s.invalidCategoryItems.length > 0
          || s.invalidExcludedCategoryItems.length > 0
          || s.invalidLocationCodes.length > 0) = true := by
        rcases h with h | h | h | h
        · exact absurd h hv
        · simp [List.length_pos.mpr h]
        · simp [List.length_pos.mpr h]
        · simp [List.length_pos.mpr h]
      simp [autoSaveSerpSettings, hu, hv, hlists]

/-- C7: in every state where location-code validation is in flight or any of
the three invalid-item lists is nonempty, autosave performs no persistence
write and surfaces neither an error nor a notice (silent suppression), and
the autosave effect does not even schedule its debounce timer; so invalid
input never reaches persistence. -/
theorem C7_autosave_suppression (s : SettingsState) (token : Option String)
    (writeError : Option String)
    (h : s.isValidatingCodes = true ∨ s.invalidCategoryItems ≠ [] ∨
         s.invalidExcludedCategoryItems ≠ [] ∨ s.invalidLocationCodes ≠ []) :
    (autoSaveSerpSettings s token writeError).write = none ∧
    (autoSaveSerpSettings s token writeError).userError = none ∧
    (autoSaveSerpSettings s token writeError).notice = none ∧
    autosaveEffectSchedules s = false := by
  rw [autoSave_suppressed s token writeError h]
  refine ⟨rfl, rfl, rfl, ?_⟩
  unfold autosaveEffectSchedules
  rcases h with h | h | h | h
  · rw [h]
    simp
  · simp [List.length_pos.mpr h]
  · simp [List.length_pos.mpr h]
  · simp [List.length_pos.mpr h]

/-- Witness for C7: a state with validation in flight. -/
theorem C7_autosave_suppression_witness :
    ((⟨some "u", true, true, true, [], [], [], [], [], [], [], []⟩ :
        SettingsState).isValidatingCodes = true ∨
     (⟨some "u", true, true, true, [], [], [], [], [], [], [], []⟩ :
        SettingsState).invalidCategoryItems ≠ [] ∨
     (⟨some "u", true, true, true, [], [], [], [], [], [], [], []⟩ :
        SettingsState).invalidExcludedCategoryItems ≠ [] ∨
     (⟨some "u", true, true, true, [], [], [], [], [], [], [], []⟩ :
        SettingsState).invalidLocationCodes ≠ []) ∧
    ((autoSaveSerpSettings
        ⟨some "u", true, true, true, [], [], [], [], [], [], [], []⟩
        (some "tok") none).write = none ∧
     (autoSaveSerpSettings
        ⟨some "u", true, true, true, [], [], [], [], [], [], [], []⟩
        (some "tok") none).userError = none ∧
     (autoSaveSerpSettings
        ⟨some "u", true, true, true, [], [], [], [], [], [], [], []⟩
        (some "tok") none).notice = none ∧
     autosaveEffectSchedules
        ⟨some "u", true, true, true, [], [], [], [], [], [], [], []⟩ = false) :=
  ⟨Or.inl rfl,
   C7_autosave_suppression ⟨some "u", true, true, true, [], [], [], [], [], [], [], []⟩
     (some "tok") none (Or.inl rfl)⟩

/-- C8: the pre-save normalization splits on commas, trims each token, drops
empty tokens, removes all internal whitespace for fields that disallow
spaces, and rejoins with commas (it coincides with the spec's normalization
on every input); an empty normalized result is persisted as a null value,
never as the empty string. -/
theorem C8_normalization (value : JStr) (allowSpaces : Bool) :
    cleanCommaSeparatedValues value allowSpaces = normalizeSpecClean value allowSpaces ∧
    persistedValue (cleanCommaSeparatedValues value allowSpaces) ≠ some [] ∧
    (cleanCommaSeparatedValues value allowSpaces = [] ↔
      persistedValue (cleanCommaSeparatedValues value allowSpaces) = none) := by
  refine ⟨?_, ?_, ?_⟩
  · by_cases hv : value = []
    · subst hv
      cases allowSpaces <;> rfl
    · have hfil : ((splitComma value).map jsTrim).filter (fun v => v.length > 0)
          = ((splitComma value).map jsTrim).filter (fun t => !t.isEmpty) := by
        apply List.filter_congr
        intro t _
        cases t <;> simp
      unfold cleanCommaSeparatedValues normalizeSpecClean
      rw [if_neg hv]
      cases allowSpaces <;> simp only [Bool.not_false, Bool.not_true, if_pos, if_neg,
        Bool.false_eq_true, ite_true, ite_false] <;> rw [hfil]
  · unfold persistedValue
    by_cases hc : cleanCommaSeparatedValues value allowSpaces = []
    · rw [if_pos hc]
      simp
    · rw [if_neg hc]
      simpa using hc
  · unfold persistedValue
    by_cases hc : cleanCommaSeparatedValues value allowSpaces = []
    · rw [if_pos hc]
      simp [hc]
    · rw [if_neg hc]
      simp [hc]

theorem clean_token_props (s : JStr) (b : Bool) (hs : s ≠ []) :
    ∃ toks : List JStr,
      cleanCommaSeparatedValues s b = joinComma toks ∧
      ∀ t ∈ toks, t ≠ [] ∧ ',' ∉ t ∧ jsTrim t = t ∧ (b = false → stripWs t = t) := by
  cases b with
  | false =>
    refine ⟨(((splitComma s).map jsTrim).filter (fun v => v.length > 0)).map stripWs, ?_, ?_⟩
    · unfold cleanCommaSeparatedValues
      rw [if_neg hs]
      rfl
    · intro t ht
      obtain ⟨v, hv, rfl⟩ := List.mem_map.mp ht
      have hvf := List.mem_filter.mp hv
      obtain ⟨p, hp, rfl⟩ := List.mem_map.mp hvf.1
      have hlen : jsTrim p ≠ [] := by
        have h2 := hvf.2
        intro he
        rw [he] at h2
        simp at h2
      have hsolid : ∃ c ∈ jsTrim p, c.isWhitespace = false := jsTrim_has_solid hlen
      refine ⟨stripWs_ne_nil hsolid, ?_, jsTrim_stripWs _, fun _ => stripWs_stripWs _⟩
      intro hcm
      exact sep_not_mem_of_mem_splitOnChar hp (mem_of_mem_jsTrim (mem_of_mem_stripWs hcm))
  | true =>
    refine ⟨((splitComma s).map jsTrim).filter (fun v => v.length > 0), ?_, ?_⟩
    · unfold cleanCommaSeparatedValues
      rw [if_neg hs]
      rfl
    · intro t ht
      have htf := List.mem_filter.mp ht
      obtain ⟨p, hp, rfl⟩ := List.mem_map.mp htf.1
      have hlen : jsTrim p ≠ [] := by
        have h2 := htf.2
        intro he
        rw [he] at h2
        simp at h2
      refine ⟨hlen, ?_, jsTrim_idem p, fun hb => by cases hb⟩
      intro hcm
      exact sep_not_mem_of_mem_splitOnChar hp (mem_of_mem_jsTrim hcm)

/-- C10: the pre-save normalization is idempotent: normalizing an already
normalized string returns it unchanged, for both values of the allowSpaces
flag. -/
theorem C10_normalization_idempotent (s : JStr) (allowSpaces : Bool) :
    cleanCommaSeparatedValues (cleanCommaSeparatedValues s allowSpaces) allowSpaces
      = cleanCommaSeparatedValues s allowSpaces := by
  by_cases hs : s = []
  · subst hs
    cases allowSpaces <;> rfl
  · obtain ⟨toks, heq, hprops⟩ := clean_token_props s allowSpaces hs
    rw [heq]
    by_cases hout : joinComma toks = []
    · rw [hout]
      cases allowSpaces <;> rfl
    · have htoks : toks ≠ [] := by
        intro he
        rw [he] at hout
        exact hout rfl
      unfold cleanCommaSeparatedValues
      rw [if_neg hout]
      have hsplit : splitComma (joinComma toks) = toks :=
        splitOnChar_joinChar htoks (fun t ht => (hprops t ht).2.1)
      have hmapt : toks.map jsTrim = toks := by
        calc toks.map jsTrim = toks.map id :=
              List.map_congr_left (fun t ht => (hprops t ht).2.2.1)
          _ = toks := List.map_id _
      have hfilt : toks.filter (fun v => v.length > 0) = toks := by
        apply List.filter_eq_self.mpr
        intro t ht
        have h1 := (hprops t ht).1
        cases t with
        | nil => exact absurd rfl h1
        | cons a l => simp
      rw [hsplit, hmapt, hfilt]
      cases allowSpaces with
      | true => rfl
      | false =>
        have hmaps : toks.map stripWs = toks := by
          calc toks.map stripWs = toks.map id :=
                List.map_congr_left (fun t ht => (hprops t ht).2.2.2 rfl)
            _ = toks := List.map_id _
        show joinComma (toks.map stripWs) = joinComma toks
        rw [hmaps]

theorem mem_draftLeadIds (db : Db) (acct : Nat) (x : String) :
    x ∈ draftLeadIds db acct ↔
      ∃ d ∈ db.emailDrafts, d.user_id = acct ∧ d.lead_id = some x ∧ x ≠ "" := by
  unfold draftLeadIds
  rw [List.mem_filterMap]
  constructor
  · rintro ⟨d, hd, hopt⟩
    have hdm := List.mem_filter.mp hd
    cases hld : d.lead_id with
    | none => rw [hld] at hopt; cases hopt
    | some s' =>
      rw [hld] at hopt
      have hopt2 : (if s' = "" then none else some s') = some x := hopt
      by_cases hsx : s' = ""
      · rw [if_pos hsx] at hopt2; cases hopt2
      · rw [if_neg hsx] at hopt2
        have hs : s' = x := Option.some.inj hopt2
        subst hs
        exact ⟨d, hdm.1, eq_of_beq hdm.2, hld, hsx⟩
  · rintro ⟨d, hd, hu, hl, hx⟩
    refine ⟨d, List.mem_filter.mpr ⟨hd, by simp [hu]⟩, ?_⟩
    rw [hl]
    show (if x = "" then none else some x) = some x
    rw [if_neg hx]

theorem mem_leadsWithEmailIds (db : Db) (ids : List String) (x : String) (hin : x ∈ ids) :
    x ∈ leadsWithEmailIds db ids ↔
      ∃ l ∈ db.serpLeads, l.id = x ∧ validEmail l.email = true := by
  unfold leadsWithEmailIds
  rw [List.mem_map]
  constructor
  · rintro ⟨l, hl, rfl⟩
    have h2 := List.mem_filter.mp hl
    have h3 := List.mem_filter.mp h2.1
    exact ⟨l, h3.1, rfl, h2.2⟩
  · rintro ⟨l, hl, hid, hv⟩
    subst hid
    refine ⟨l, List.mem_filter.mpr ⟨List.mem_filter.mpr ⟨hl, ?_⟩, hv⟩, rfl⟩
    exact List.elem_iff.mpr hin

/-- C9: the in-memory filter keeps the association order (it yields a
sublist of the visible list), applies no filter in excluded view, and in
normal view keeps exactly the rows that are not already drafted (unless
showEmailedLeads) and have a valid email — nonempty and not the sentinel
EmailNotFound — (unless showWithoutEmails). -/
theorem C9_inmemory_filter (db : Db) (acct : Nat) (cfg : FilterConfig) (ul : UserLeadRow)
    (ha : acct ≠ 0) :
    List.Sublist (filteredAssociations db acct cfg)
      (visibleAssociations db acct cfg.showExcludedLeads) ∧
    (ul ∈ filteredAssociations db acct cfg ↔
      ul ∈ visibleAssociations db acct cfg.showExcludedLeads ∧
      (cfg.showExcludedLeads = true ∨
        ((cfg.showEmailedLeads = false →
           ¬ ∃ d ∈ db.emailDrafts, d.user_id = acct ∧ d.lead_id = some ul.lead_id ∧
               ul.lead_id ≠ "") ∧
         (cfg.showWithoutEmails = false →
           ∃ l ∈ db.serpLeads, l.id = ul.lead_id ∧ validEmail l.email = true)))) := by
  constructor
  · unfold filteredAssociations filteredFromRows
    exact List.filter_sublist _
  · unfold filteredAssociations filteredFromRows
    rw [List.mem_filter]
    constructor
    · rintro ⟨hvis, hkeep⟩
      refine ⟨hvis, ?_⟩
      have hinids : ul.lead_id ∈ (visibleAssociations db acct cfg.showExcludedLeads).map
          (fun u => u.lead_id) := List.mem_map_of_mem _ hvis
      cases hexc : cfg.showExcludedLeads with
      | true => exact Or.inl rfl
      | false =>
        rw [hexc] at hkeep
        refine Or.inr ⟨?_, ?_⟩
        · intro hem hdraft
          have hane : (acct != 0) = true := by simp [ha]
          rw [hem, hane] at hkeep
          simp at hkeep
          exact hkeep.1 ((mem_draftLeadIds db acct ul.lead_id).mpr hdraft)
        · intro hwo
          rw [hwo] at hkeep
          simp at hkeep
          rw [hexc] at hinids
          exact (mem_leadsWithEmailIds db _ ul.lead_id hinids).mp hkeep.2
    · rintro ⟨hvis, hcond⟩
      refine ⟨hvis, ?_⟩
      have hinids : ul.lead_id ∈ (visibleAssociations db acct cfg.showExcludedLeads).map
          (fun u => u.lead_id) := List.mem_map_of_mem _ hvis
      cases hexc : cfg.showExcludedLeads with
      | true => simp [hexc]
      | false =>
        rcases hcond with hcond | ⟨hnd, hne⟩
        · rw [hexc] at hcond
          cases hcond
        · rw [hexc] at hinids
          cases hem : cfg.showEmailedLeads with
          | true =>
            cases hwo : cfg.showWithoutEmails with
            | true => simp [hexc, hem, hwo]
            | false =>
              have hmem : ul.lead_id ∈ leadsWithEmailIds db
                  ((visibleAssociations db acct false).map (fun u => u.lead_id)) :=
                (mem_leadsWithEmailIds db _ ul.lead_id hinids).mpr (hne hwo)
              simp [hexc, hem, hwo, hmem]
          | false =>
            have hnodraft : ul.lead_id ∉ draftLeadIds db acct := fun hm =>
              (hnd hem) ((mem_draftLeadIds db acct ul.lead_id).mp hm)
            have hane : (acct != 0) = true := by simp [ha]
            cases hwo : cfg.showWithoutEmails with
            | true => simp [hexc, hem, hwo, hane, hnodraft]
            | false =>
              have hmem : ul.lead_id ∈ leadsWithEmailIds db
                  ((visibleAssociations db acct false).map (fun u => u.lead_id)) :=
                (mem_leadsWithEmailIds db _ ul.lead_id hinids).mpr (hne hwo)
              simp [hexc, hem, hwo, hane, hnodraft, hmem]

/-- Witness for C9 at a concrete store and the default configuration. -/
theorem C9_inmemory_filter_witness :
    (1 : Nat) ≠ 0 ∧
    (List.Sublist (filteredAssociations
        ⟨[⟨10, 1, "x", none⟩, ⟨11, 1, "y", none⟩],
         [⟨"x", some "m"⟩, ⟨"y", some "EmailNotFound"⟩], [], []⟩ 1 defaultCfg)
      (visibleAssociations
        ⟨[⟨10, 1, "x", none⟩, ⟨11, 1, "y", none⟩],
         [⟨"x", some "m"⟩, ⟨"y", some "EmailNotFound"⟩], [], []⟩ 1
        defaultCfg.showExcludedLeads) ∧
     ((⟨10, 1, "x", none⟩ : UserLeadRow) ∈ filteredAssociations
        ⟨[⟨10, 1, "x", none⟩, ⟨11, 1, "y", none⟩],
         [⟨"x", some "m"⟩, ⟨"y", some "EmailNotFound"⟩], [], []⟩ 1 defaultCfg ↔
      (⟨10, 1, "x", none⟩ : UserLeadRow) ∈ visibleAssociations
        ⟨[⟨10, 1, "x", none⟩, ⟨11, 1, "y", none⟩],
         [⟨"x", some "m"⟩, ⟨"y", some "EmailNotFound"⟩], [], []⟩ 1
        defaultCfg.showExcludedLeads ∧
      (defaultCfg.showExcludedLeads = true ∨
        ((defaultCfg.showEmailedLeads = false →
           ¬ ∃ d ∈ (⟨[⟨10, 1, "x", none⟩, ⟨11, 1, "y", none⟩],
               [⟨"x", some "m"⟩, ⟨"y", some "EmailNotFound"⟩], [], []⟩ : Db).emailDrafts,
               d.user_id = 1 ∧ d.lead_id = some (⟨10, 1, "x", none⟩ : UserLeadRow).lead_id ∧
               (⟨10, 1, "x", none⟩ : UserLeadRow).lead_id ≠ "") ∧
         (defaultCfg.showWithoutEmails = false →
           ∃ l ∈ (⟨[⟨10, 1, "x", none⟩, ⟨11, 1, "y", none⟩],
               [⟨"x", some "m"⟩, ⟨"y", some "EmailNotFound"⟩], [], []⟩ : Db).serpLeads,
               l.id = (⟨10, 1, "x", none⟩ : UserLeadRow).lead_id ∧
               validEmail l.email = true))))) :=
  ⟨by decide,
   C9_inmemory_filter
     ⟨[⟨10, 1, "x", none⟩, ⟨11, 1, "y", none⟩],
      [⟨"x", some "m"⟩, ⟨"y", some "EmailNotFound"⟩], [], []⟩ 1 defaultCfg
     ⟨10, 1, "x", none⟩ (by decide)⟩
